import Mathlib

/-
  Verification development for the sitemap crawler (src/main.py).

  The Python program resolves a sitemap URL to a list of page URLs and crawls
  them in batches of `max_concurrent` through an external browsing capability
  (crawl4ai's AsyncWebCrawler), tallying successes and failures and persisting
  each successful page's content to disk.

  Shallow embedding choices:
  * The fetch capability is a parameter `fetch : String → String → FetchRes`
    mapping (url, session_id) to either a raised exception (`FetchRes.exn`,
    what `asyncio.gather(..., return_exceptions=True)` hands back) or a
    `CrawlResult`.
  * The filesystem is a parameter `writeOk : String → Bool`: whether opening
    and writing the file at a given output path succeeds; `false` means the
    write raises (e.g. OSError), which the Python code does not catch.
  * `crawler.start()` faulting is modelled by `CrawlEnv.startFault`.
  * Fallible steps return `Except String _`; an `Except.error` is a Python
    exception propagating out of the corresponding code.
  * Loops whose Python counterpart iterates a shrinking slice are written with
    structural recursion on an explicit fuel argument so that every definition
    kernel-evaluates on concrete inputs; fuel equal to the list length is
    always sufficient because each iteration consumes at least one element.
-/

namespace Scraper

/-- Strips `pat` from the front of `s`: `some` of the remainder when `pat` is
a prefix of `s`, `none` otherwise. Helper for the embedding of Python
`str.replace` and `str.startswith`. -/
def dropPre : List Char → List Char → Option (List Char)
  | [], s => some s
  | _ :: _, [] => none
  | p :: ps, c :: cs => if p = c then dropPre ps cs else none

/-- Embedding of Python `str.replace` on character lists: scan left to right;
at each position, if the pattern matches, emit the replacement and continue
after the matched occurrence (non-overlapping), else emit the character and
advance. Structural recursion on fuel; fuel at least the string length is
sufficient for the non-empty patterns the program uses. -/
def replaceFuel (pat rep : List Char) : Nat → List Char → List Char
  | _, [] => []
  | 0, s => s
  | fuel + 1, c :: cs =>
    match dropPre pat (c :: cs) with
    | some suffix => rep ++ replaceFuel pat rep fuel suffix
    | none => c :: replaceFuel pat rep fuel cs

/-- `s.replace(pat, rep)` from Python, for non-empty `pat`. -/
def pyReplace (s pat rep : String) : String :=
  String.mk (replaceFuel pat.data rep.data s.data.length s.data)

/-- Decimal rendering of a natural number, as Python `str` / f-string
formatting produces it. -/
def natToDecimal (n : Nat) : List Char :=
  if n = 0 then ['0'] else ((Nat.digits 10 n).map Nat.digitChar).reverse

/-- `session_id = f"parallel_session_{i + j}"` (src/main.py line 49), where
`i` is the batch's start index in the overall URL list and `j` the offset
within the batch, so the argument is the task's global position. -/
def sessionId (k : Nat) : String :=
  "parallel_session_" ++ String.mk (natToDecimal k)

/-- The fields of crawl4ai's `CrawlResult` that src/main.py reads: the
`success` flag, the result's `url`, and the optional `markdown` / `html`
content (an absent or empty string is falsy in the Python truthiness tests). -/
structure CrawlResult where
  success : Bool
  url : String
  markdown : Option String
  html : Option String
deriving Repr, DecidableEq

/-- One element of the list `asyncio.gather(*tasks, return_exceptions=True)`
returns: either the exception the task raised, or its `CrawlResult`. -/
inductive FetchRes where
  | exn (msg : String)
  | res (r : CrawlResult)
deriving Repr, DecidableEq

/-- The two counters `success_count` and `fail_count` of `_crawl_parallel`. -/
structure Tally where
  success_count : Nat
  fail_count : Nat
deriving Repr, DecidableEq

/-- External collaborators of `_crawl_parallel`: whether `crawler.start()`
raises (and with what message), the fetch capability, and the filesystem's
response to each attempted write. -/
structure CrawlEnv where
  startFault : Option String
  fetch : String → String → FetchRes
  writeOk : String → Bool

/-- Filename derivation of `_save_markdown_to_result_dir` (line 85):
`result.url.replace("https://", "").replace("/", "_").replace(".", "_")`.
Note all three are replace-ALL-occurrences operations. -/
def filenameOf (url : String) : String :=
  pyReplace (pyReplace (pyReplace url "https://" "") "/" "_") "." "_"

/-- `_save_markdown_to_result_dir` (lines 77-98). Returns `Except.ok none`
when no file is written (selected content absent or empty — Python truthiness
of `result.html` / `result.markdown`), `Except.ok (some (path, content))` for
a completed write, and `Except.error path` when the write raises; the
function has no try/except, so such an error propagates to the caller. Paths
are relative to the output directory, which is fixed for the process. -/
def save_markdown_to_result_dir (writeOk : String → Bool) (result : CrawlResult)
    (html_output : Bool) : Except String (Option (String × String)) :=
  let filename := filenameOf result.url
  if html_output then
    match result.html with
    | some h =>
      if h = "" then Except.ok none
      else
        let out := filename ++ ".html"
        if writeOk out then Except.ok (some (out, h)) else Except.error out
    | none => Except.ok none
  else
    match result.markdown with
    | some m =>
      if m = "" then Except.ok none
      else
        let out := filename ++ ".md"
        if writeOk out then Except.ok (some (out, m)) else Except.error out
    | none => Except.ok none

/-- Task creation plus gather for one batch (lines 47-54): for `j, url` in
`enumerate(batch)` the task is `crawler.arun(url, session_id =
parallel_session_{i+j})`; `zip(batch, results)` then pairs each URL with its
outcome in batch order. `k` is the session counter, starting at the batch's
start index `i`. -/
def batchTasks (fetch : String → String → FetchRes) :
    Nat → List String → List (String × FetchRes)
  | _, [] => []
  | k, u :: rest => (u, fetch u (sessionId k)) :: batchTasks fetch (k + 1) rest

/-- The result-evaluation loop over `zip(batch, results)` (lines 57-66): an
exception counts one failure; a `CrawlResult` with `success` counts one
success and is persisted (a raised write error propagates, aborting the
loop); otherwise one failure. -/
def evalResults (writeOk : String → Bool) (html_output : Bool) :
    List (String × FetchRes) → Tally → Except String Tally
  | [], t => Except.ok t
  | (_, FetchRes.exn _) :: rest, t =>
    evalResults writeOk html_output rest ⟨t.success_count, t.fail_count + 1⟩
  | (_, FetchRes.res r) :: rest, t =>
    if r.success then
      match save_markdown_to_result_dir writeOk r html_output with
      | Except.error e => Except.error e
      | Except.ok _ =>
        evalResults writeOk html_output rest ⟨t.success_count + 1, t.fail_count⟩
    else evalResults writeOk html_output rest ⟨t.success_count, t.fail_count + 1⟩

/-- The batching loop `for i in range(0, len(urls), max_concurrent)` with
`batch = urls[i : i + max_concurrent]` (lines 43-66): process the current
batch, then recurse on the remaining URLs with the session counter advanced
by `mc`. Structural recursion on fuel; `fuel = urls.length` suffices when
`mc ≥ 1`. -/
def crawlLoopFuel (env : CrawlEnv) (html_output : Bool) (mc : Nat) :
    Nat → List String → Nat → Tally → Except String Tally
  | _, [], _, t => Except.ok t
  | 0, _ :: _, _, t => Except.ok t
  | fuel + 1, u :: rest, i, t =>
    match evalResults env.writeOk html_output
        (batchTasks env.fetch i ((u :: rest).take mc)) t with
    | Except.error e => Except.error e
    | Except.ok t' =>
      crawlLoopFuel env html_output mc fuel ((u :: rest).drop mc) (i + mc) t'

/-- Observable trace of one `_crawl_parallel` call: whether `crawler.start()`
was invoked, how many times `crawler.close()` ran, and the outcome (the final
tally, or the exception that propagated out). -/
structure RunTrace where
  startInvoked : Bool
  closeCount : Nat
  result : Except String Tally
deriving Repr

/-- `_crawl_parallel(urls, html_output, max_concurrent)` (lines 24-74).
`crawler.start()` is awaited BEFORE the try/finally block, so a start fault
propagates without `crawler.close()` ever running; once start succeeds, the
`finally` clause closes the crawler exactly once on every exit path. With
`max_concurrent = 0`, Python's `range(0, len(urls), 0)` raises ValueError
inside the try block. -/
def crawl_parallel (env : CrawlEnv) (urls : List String) (html_output : Bool)
    (max_concurrent : Nat) : RunTrace :=
  match env.startFault with
  | some msg => { startInvoked := true, closeCount := 0, result := Except.error msg }
  | none =>
    { startInvoked := true
      closeCount := 1
      result :=
        if max_concurrent = 0 then Except.error "range() arg 3 must not be zero"
        else crawlLoopFuel env html_output max_concurrent urls.length urls 0 ⟨0, 0⟩ }

/-- The sequence of `batch = urls[i : i + mc]` slices the loop header of
lines 43-44 produces, via the same fuel device as `crawlLoopFuel`. -/
def batchesFuel (mc : Nat) : Nat → List String → List (List String)
  | _, [] => []
  | 0, _ :: _ => []
  | fuel + 1, u :: rest => (u :: rest).take mc :: batchesFuel mc fuel ((u :: rest).drop mc)

/-- The batch partition of a URL list at width `mc`. -/
def batches (mc : Nat) (urls : List String) : List (List String) :=
  batchesFuel mc urls.length urls

/-- Batch-at-a-time restatement of the crawl loop: evaluate each batch in
order, advancing the session counter by `mc` per batch. Used to show that
`crawlLoopFuel` processes exactly the batches of `batches mc urls`. -/
def foldBatches (env : CrawlEnv) (html_output : Bool) (mc : Nat) :
    List (List String) → Nat → Tally → Except String Tally
  | [], _, t => Except.ok t
  | b :: bs, i, t =>
    match evalResults env.writeOk html_output (batchTasks env.fetch i b) t with
    | Except.error e => Except.error e
    | Except.ok t' => foldBatches env html_output mc bs (i + mc) t'

/-- The outcome each task position receives, independent of batching: the
task at global position `i` fetches its URL under `sessionId i`. -/
def outcomesFrom (fetch : String → String → FetchRes) :
    Nat → List String → List FetchRes
  | _, [] => []
  | i, u :: rest => fetch u (sessionId i) :: outcomesFrom fetch (i + 1) rest

/-- All task outcomes of a run over `urls`, in submission order. -/
def taskOutcomes (fetch : String → String → FetchRes) (urls : List String) :
    List FetchRes :=
  outcomesFrom fetch 0 urls

/-- Whether an outcome is tallied as a success by lines 59-66: a returned
`CrawlResult` whose `success` flag is set; an exception or an unsuccessful
result is tallied as a failure. -/
def isSucc : FetchRes → Bool
  | FetchRes.exn _ => false
  | FetchRes.res r => r.success

/-- A parsed XML element as `xml.etree.ElementTree` presents it to this
program: its (namespace-qualified) tag, its optional text (None when the
element has no text node), and its child elements in document order. -/
inductive XmlElem where
  | mk (tag : String) (text : Option String) (children : List XmlElem)
deriving Repr

/-- The element's tag. -/
def XmlElem.tag : XmlElem → String
  | .mk t _ _ => t

/-- The element's text. -/
def XmlElem.text : XmlElem → Option String
  | .mk _ tx _ => tx

/-- The element's children. -/
def XmlElem.children : XmlElem → List XmlElem
  | .mk _ _ cs => cs

mutual
/-- All proper descendants of an element, in document (preorder) order —
what `element.findall(".//…")` iterates over before tag filtering. -/
def descendants : XmlElem → List XmlElem
  | .mk _ _ cs => descendantsL cs
/-- Preorder listing of a forest: each root followed by its descendants. -/
def descendantsL : List XmlElem → List XmlElem
  | [] => []
  | c :: cs => c :: (descendants c ++ descendantsL cs)
end

/-- The sitemap XML namespace URI bound to prefix `ns` in both parsing
functions. -/
def sitemapNS : String := "http://www.sitemaps.org/schemas/sitemap/0.9"

/-- ElementTree's qualified form of a tag in that namespace. -/
def nsTag (localName : String) : String :=
  "\x7b" ++ sitemapNS ++ "\x7d" ++ localName

/-- Embedding of Python `str.endswith`. -/
def strEndsWith (s suffix : String) : Bool :=
  List.isSuffixOf suffix.data s.data

/-- Selects an element's contribution to the `loc`-text listing: its text,
when the element carries the qualified `loc` tag and the text is truthy
(present and non-empty). -/
def locSel (e : XmlElem) : Option String :=
  if e.tag = nsTag "loc" then
    match e.text with
    | some t => if t = "" then none else some t
    | none => none
  else none

/-- `[loc.text for loc in root.findall(".//ns:loc", namespace) if loc.text]`
(lines 118 and 147): the text of every descendant element carrying the
qualified `loc` tag, in document order, keeping only truthy texts. -/
def locTexts (root : XmlElem) : List String :=
  (descendants root).filterMap locSel

/-- `_get_urls_to_crawl` (lines 101-124). `fetchXml` models the whole
`requests.get` + `raise_for_status` + `ElementTree.fromstring` prefix of the
try block; `Except.error` is any exception raised there, which the function
catches, logs, and converts to an empty list. -/
def get_urls_to_crawl (fetchXml : String → Except String XmlElem)
    (sitemap_url : String) : List String :=
  match fetchXml sitemap_url with
  | Except.error _ => []
  | Except.ok root => locTexts root

/-- `_get_child_sitemaps` (lines 127-152): same fetch/parse prefix; if the
root tag does not end with "sitemapindex" the base URL itself is the single
leaf sitemap, otherwise every truthy descendant `loc` text is returned. -/
def get_child_sitemaps (fetchXml : String → Except String XmlElem)
    (base_sitemap_url : String) : List String :=
  match fetchXml base_sitemap_url with
  | Except.error _ => []
  | Except.ok root =>
    if strEndsWith root.tag "sitemapindex" = false then [base_sitemap_url]
    else locTexts root

/-- A sitemap-index document: root tagged `sitemapindex`, one `sitemap` child
per entry, each holding a single `loc` with the given text. -/
def mkIndexDoc (ts : List String) : XmlElem :=
  .mk (nsTag "sitemapindex") none
    (ts.map fun t => .mk (nsTag "sitemap") none [.mk (nsTag "loc") (some t) []])

/-- A leaf sitemap document: root tagged `urlset`, one `url` child per entry,
each holding a single `loc` with the given text. -/
def mkUrlsetDoc (ts : List String) : XmlElem :=
  .mk (nsTag "urlset") none
    (ts.map fun t => .mk (nsTag "url") none [.mk (nsTag "loc") (some t) []])

/-- The URL list `main` builds (lines 176-180): the concatenation, in order,
of `_get_urls_to_crawl` over every child sitemap. -/
def sitemapURLs (fetchXml : String → Except String XmlElem)
    (sitemap_url : String) : List String :=
  (get_child_sitemaps fetchXml sitemap_url).foldl
    (fun acc cs => acc ++ get_urls_to_crawl fetchXml cs) []

/-- `main` (lines 174-190): resolve the URL list; crawl it with
`max_concurrent = 10` only when it is non-empty (`if urls:`), otherwise log a
warning and never construct or start the crawler (`none`). -/
def main_run (env : CrawlEnv) (fetchXml : String → Except String XmlElem)
    (sitemap_url : String) (html_output : Bool) : Option RunTrace :=
  let urls := sitemapURLs fetchXml sitemap_url
  if urls = [] then none else some (crawl_parallel env urls html_output 10)

/-- Modelled from the spec's wording of claim C8, for comparison with
`filenameOf`: strip a LEADING `https://` prefix (only), then replace every
`/` and every `.` with `_`. The code instead removes every occurrence of
the substring `https://`. -/
def specFilenameOf (url : String) : String :=
  let stripped : String :=
    match dropPre "https://".data url.data with
    | some rest => String.mk rest
    | none => url
  pyReplace (pyReplace stripped "/" "_") "." "_"

/- ------------------------------------------------------------------ -/
/- Concrete environments and documents used to instantiate theorems.   -/
/- ------------------------------------------------------------------ -/

/-- Every fetch succeeds with markdown content; every write succeeds. -/
def envAllOk : CrawlEnv :=
  { startFault := none
    fetch := fun u _ => FetchRes.res ⟨true, u, some "M", none⟩
    writeOk := fun _ => true }

/-- `crawler.start()` raises. -/
def envStartFault : CrawlEnv :=
  { startFault := some "boom"
    fetch := fun u _ => FetchRes.res ⟨true, u, some "M", none⟩
    writeOk := fun _ => true }

/-- Every fetch succeeds with markdown content, but every file write raises. -/
def envWriteFault : CrawlEnv :=
  { startFault := none
    fetch := fun u _ => FetchRes.res ⟨true, u, some "M", none⟩
    writeOk := fun _ => false }

/-- Mixed outcomes: fetching `https://bad` raises, `https://sad` returns an
unsuccessful result, everything else succeeds; all writes succeed. -/
def envMixed : CrawlEnv :=
  { startFault := none
    fetch := fun u _ =>
      if u = "https://bad" then FetchRes.exn "net down"
      else if u = "https://sad" then FetchRes.res ⟨false, u, none, none⟩
      else FetchRes.res ⟨true, u, some "M", none⟩
    writeOk := fun _ => true }

/-- A leaf sitemap with one normal entry, one empty `loc`, one `loc` sitting
directly under the root (not inside a `url` element), and one `loc` with no
text at all. -/
def mixedDoc : XmlElem :=
  .mk (nsTag "urlset") none
    [ .mk (nsTag "url") none [.mk (nsTag "loc") (some "https://x/y") []],
      .mk (nsTag "url") none [.mk (nsTag "loc") (some "") []],
      .mk (nsTag "loc") (some "https://toplevel") [],
      .mk (nsTag "url") none [.mk (nsTag "loc") none []] ]

/- ------------------------------------------------------------------ -/
/- Helper lemmas.                                                      -/
/- ------------------------------------------------------------------ -/

/-- Reads a decimal digit character back to its value. -/
def decVal (c : Char) : Nat := c.toNat - 48

/-- Parses a big-endian decimal character list back to a number; left
inverse of `natToDecimal`. -/
def decParse (l : List Char) : Nat := Nat.ofDigits 10 (l.reverse.map decVal)

lemma decVal_digitChar (d : Nat) (hd : d < 10) : decVal (Nat.digitChar d) = d := by
  interval_cases d <;> decide

lemma decParse_natToDecimal (n : Nat) : decParse (natToDecimal n) = n := by
  unfold natToDecimal decParse
  by_cases h : n = 0
  · subst h
    simp [Nat.ofDigits, decVal]
  · simp only [h, if_false, List.reverse_reverse, List.map_map]
    have hmap : (Nat.digits 10 n).map (decVal ∘ Nat.digitChar)
        = (Nat.digits 10 n).map id := by
      refine List.map_congr_left fun d hd => ?_
      exact decVal_digitChar d (Nat.digits_lt_base (by norm_num) hd)
    rw [hmap, List.map_id, Nat.ofDigits_digits]

lemma natToDecimal_injective : Function.Injective natToDecimal := by
  intro a b h
  have := congrArg decParse h
  rwa [decParse_natToDecimal, decParse_natToDecimal] at this

lemma sessionId_injective : Function.Injective sessionId := by
  intro a b h
  apply natToDecimal_injective
  have hd := congrArg String.data h
  simp only [sessionId, String.data_append] at hd
  exact List.append_cancel_left hd

lemma save_markdown_ok_of_writeOk (writeOk : String → Bool)
    (hw : ∀ p, writeOk p = true) (r : CrawlResult) (ho : Bool) :
    ∃ v, save_markdown_to_result_dir writeOk r ho = Except.ok v := by
  unfold save_markdown_to_result_dir
  by_cases hho : ho
  · simp only [hho, if_true]
    cases r.html with
    | none => exact ⟨none, rfl⟩
    | some h =>
      by_cases hh : h = ""
      · exact ⟨none, by simp [hh]⟩
      · refine ⟨some (filenameOf r.url ++ ".html", h), ?_⟩
        simp [hh, hw]
  · simp only [hho, if_false]
    cases r.markdown with
    | none => exact ⟨none, rfl⟩
    | some m =>
      by_cases hm : m = ""
      · exact ⟨none, by simp [hm]⟩
      · refine ⟨some (filenameOf r.url ++ ".md", m), ?_⟩
        simp [hm, hw]

lemma evalResults_ok_counts (writeOk : String → Bool) (ho : Bool) :
    ∀ (lst : List (String × FetchRes)) (t t' : Tally),
      evalResults writeOk ho lst t = Except.ok t' →
      t'.success_count = t.success_count + (lst.map Prod.snd).countP isSucc ∧
      t'.fail_count = t.fail_count + (lst.map Prod.snd).countP (fun r => !isSucc r)
  | [], t, t', h => by
    obtain rfl : t = t' := by simpa [evalResults] using h
    simp
  | (u, FetchRes.exn m) :: rest, t, t', h => by
    have hrec := evalResults_ok_counts writeOk ho rest
      ⟨t.success_count, t.fail_count + 1⟩ t' (by simpa [evalResults] using h)
    simpa [isSucc, Nat.add_assoc, Nat.add_comm 1] using hrec
  | (u, FetchRes.res r) :: rest, t, t', h => by
    by_cases hs : r.success
    · rw [evalResults, if_pos hs] at h
      rcases hsave : save_markdown_to_result_dir writeOk r ho with e | v
      · rw [hsave] at h
        exact absurd h (by simp)
      · rw [hsave] at h
        have hrec := evalResults_ok_counts writeOk ho rest
          ⟨t.success_count + 1, t.fail_count⟩ t' h
        simpa [isSucc, hs, Nat.add_assoc, Nat.add_comm 1] using hrec
    · rw [evalResults, if_neg hs] at h
      have hrec := evalResults_ok_counts writeOk ho rest
        ⟨t.success_count, t.fail_count + 1⟩ t' h
      simpa [isSucc, hs, Nat.add_assoc, Nat.add_comm 1] using hrec

lemma evalResults_ok_of_writeOk (writeOk : String → Bool)
    (hw : ∀ p, writeOk p = true) (ho : Bool) :
    ∀ (lst : List (String × FetchRes)) (t : Tally),
      ∃ t', evalResults writeOk ho lst t = Except.ok t'
  | [], t => ⟨t, rfl⟩
  | (u, FetchRes.exn m) :: rest, t => by
    simpa [evalResults] using
      evalResults_ok_of_writeOk writeOk hw ho rest ⟨t.success_count, t.fail_count + 1⟩
  | (u, FetchRes.res r) :: rest, t => by
    by_cases hs : r.success
    · obtain ⟨v, hv⟩ := save_markdown_ok_of_writeOk writeOk hw r ho
      simpa [evalResults, hs, hv] using
        evalResults_ok_of_writeOk writeOk hw ho rest ⟨t.success_count + 1, t.fail_count⟩
    · simpa [evalResults, hs] using
      evalResults_ok_of_writeOk writeOk hw ho rest ⟨t.success_count, t.fail_count + 1⟩

lemma batchTasks_map_snd (fetch : String → String → FetchRes) :
    ∀ (i : Nat) (l : List String),
      (batchTasks fetch i l).map Prod.snd = outcomesFrom fetch i l
  | _, [] => rfl
  | i, u :: rest => by
    simp [batchTasks, outcomesFrom, batchTasks_map_snd fetch (i + 1) rest]

lemma outcomesFrom_length (fetch : String → String → FetchRes) :
    ∀ (i : Nat) (l : List String), (outcomesFrom fetch i l).length = l.length
  | _, [] => rfl
  | i, u :: rest => by
    simp [outcomesFrom, outcomesFrom_length fetch (i + 1) rest]

lemma outcomesFrom_take_drop (fetch : String → String → FetchRes) :
    ∀ (l : List String) (i n : Nat),
      outcomesFrom fetch i l
        = outcomesFrom fetch i (l.take n) ++ outcomesFrom fetch (i + n) (l.drop n)
  | [], i, n => by simp [outcomesFrom]
  | u :: rest, i, 0 => by simp [outcomesFrom]
  | u :: rest, i, n + 1 => by
    have hrec := outcomesFrom_take_drop fetch rest (i + 1) n
    have hi : i + (n + 1) = i + 1 + n := by omega
    simp only [List.take_succ_cons, List.drop_succ_cons, outcomesFrom, hi, hrec,
      List.cons_append]

lemma crawlLoopFuel_ok_counts (env : CrawlEnv) (ho : Bool) (mc : Nat)
    (hmc : 1 ≤ mc) :
    ∀ (fuel : Nat) (l : List String) (i : Nat) (t t' : Tally),
      l.length ≤ fuel →
      crawlLoopFuel env ho mc fuel l i t = Except.ok t' →
      t'.success_count
          = t.success_count + (outcomesFrom env.fetch i l).countP isSucc ∧
      t'.fail_count
          = t.fail_count + (outcomesFrom env.fetch i l).countP (fun r => !isSucc r)
  | fuel, [], i, t, t', _, h => by
    obtain rfl : t = t' := by
      cases fuel <;> simpa [crawlLoopFuel] using h
    simp [outcomesFrom]
  | 0, u :: rest, i, t, t', hlen, h => by
    simp at hlen
  | fuel + 1, u :: rest, i, t, t', hlen, h => by
    rw [crawlLoopFuel] at h
    rcases heval : evalResults env.writeOk ho
        (batchTasks env.fetch i ((u :: rest).take mc)) t with e | t₁
    · rw [heval] at h
      exact absurd h (by simp)
    · rw [heval] at h
      have hlen' : ((u :: rest).drop mc).length ≤ fuel := by
        simp only [List.length_drop] at *
        simp at hlen ⊢
        omega
      have hrec := crawlLoopFuel_ok_counts env ho mc hmc fuel
        ((u :: rest).drop mc) (i + mc) t₁ t' hlen' h
      have hev := evalResults_ok_counts env.writeOk ho _ t t₁ heval
      rw [batchTasks_map_snd] at hev
      rw [outcomesFrom_take_drop env.fetch (u :: rest) i mc, List.countP_append,
        List.countP_append]
      constructor
      · rw [hrec.1, hev.1, Nat.add_assoc]
      · rw [hrec.2, hev.2, Nat.add_assoc]

lemma crawlLoopFuel_ok_of_writeOk (env : CrawlEnv) (ho : Bool) (mc : Nat)
    (hmc : 1 ≤ mc) (hw : ∀ p, env.writeOk p = true) :
    ∀ (fuel : Nat) (l : List String) (i : Nat) (t : Tally),
      l.length ≤ fuel →
      ∃ t', crawlLoopFuel env ho mc fuel l i t = Except.ok t'
  | fuel, [], i, t, _ => ⟨t, by cases fuel <;> rfl⟩
  | 0, u :: rest, i, t, hlen => by simp at hlen
  | fuel + 1, u :: rest, i, t, hlen => by
    obtain ⟨t₁, ht₁⟩ := evalResults_ok_of_writeOk env.writeOk hw ho
      (batchTasks env.fetch i ((u :: rest).take mc)) t
    have hlen' : ((u :: rest).drop mc).length ≤ fuel := by
      simp only [List.length_drop] at *
      simp at hlen ⊢
      omega
    obtain ⟨t', ht'⟩ := crawlLoopFuel_ok_of_writeOk env ho mc hmc hw fuel
      ((u :: rest).drop mc) (i + mc) t₁ hlen'
    exact ⟨t', by rw [crawlLoopFuel, ht₁]; exact ht'⟩

lemma batchesFuel_nil (mc : Nat) : ∀ fuel, batchesFuel mc fuel [] = []
  | 0 => rfl
  | _ + 1 => rfl

lemma batchesFuel_flatten (mc : Nat) (hmc : 1 ≤ mc) :
    ∀ (fuel : Nat) (l : List String), l.length ≤ fuel →
      (batchesFuel mc fuel l).flatten = l
  | fuel, [], _ => by rw [batchesFuel_nil]; rfl
  | 0, u :: rest, hlen => by simp at hlen
  | fuel + 1, u :: rest, hlen => by
    have hlen' : ((u :: rest).drop mc).length ≤ fuel := by
      simp only [List.length_drop] at *
      simp at hlen ⊢
      omega
    rw [batchesFuel, List.flatten_cons,
      batchesFuel_flatten mc hmc fuel ((u :: rest).drop mc) hlen',
      List.take_append_drop]

lemma batchesFuel_mem (mc : Nat) (hmc : 1 ≤ mc) :
    ∀ (fuel : Nat) (l : List String) (b : List String), l.length ≤ fuel →
      b ∈ batchesFuel mc fuel l → b ≠ [] ∧ b.length ≤ mc
  | fuel, [], b, _, hb => by rw [batchesFuel_nil] at hb; exact absurd hb (by simp)
  | 0, u :: rest, b, hlen, _ => by simp at hlen
  | fuel + 1, u :: rest, b, hlen, hb => by
    rw [batchesFuel] at hb
    rcases List.mem_cons.mp hb with hb | hb
    · subst hb
      refine ⟨?_, List.length_take_le mc (u :: rest)⟩
      intro hnil
      have := congrArg List.length hnil
      simp at this
      omega
    · have hlen' : ((u :: rest).drop mc).length ≤ fuel := by
        simp only [List.length_drop] at *
        simp at hlen ⊢
        omega
      exact batchesFuel_mem mc hmc fuel ((u :: rest).drop mc) b hlen' hb

lemma batchesFuel_dropLast (mc : Nat) (hmc : 1 ≤ mc) :
    ∀ (fuel : Nat) (l : List String) (b : List String), l.length ≤ fuel →
      b ∈ (batchesFuel mc fuel l).dropLast → b.length = mc
  | fuel, [], b, _, hb => by rw [batchesFuel_nil] at hb; exact absurd hb (by simp)
  | 0, u :: rest, b, hlen, _ => by simp at hlen
  | fuel + 1, u :: rest, b, hlen, hb => by
    rw [batchesFuel] at hb
    rcases hdrop : (u :: rest).drop mc with _ | ⟨v, vs⟩
    · rw [hdrop, batchesFuel_nil] at hb
      exact absurd hb (by simp)
    · have hlen' : ((u :: rest).drop mc).length ≤ fuel := by
        simp only [List.length_drop] at *
        simp at hlen ⊢
        omega
      have hrest : batchesFuel mc fuel ((u :: rest).drop mc) ≠ [] := by
        rw [hdrop]
        cases fuel with
        | zero =>
          rw [hdrop] at hlen'
          simp at hlen'
        | succ f => simp [batchesFuel]
      rw [List.dropLast_cons_of_ne_nil hrest] at hb
      rcases List.mem_cons.mp hb with hb | hb
      · subst hb
        have hgt : mc < (u :: rest).length := by
          by_contra hle
          push_neg at hle
          rw [List.drop_eq_nil_of_le hle] at hdrop
          exact absurd hdrop (by simp)
        rw [List.length_take]
        simp only [List.length_cons] at hgt ⊢
        omega
      · exact batchesFuel_dropLast mc hmc fuel ((u :: rest).drop mc) b hlen' hb

lemma crawlLoopFuel_eq_foldBatches (env : CrawlEnv) (ho : Bool) (mc : Nat)
    (hmc : 1 ≤ mc) :
    ∀ (fuel : Nat) (l : List String) (i : Nat) (t : Tally), l.length ≤ fuel →
      crawlLoopFuel env ho mc fuel l i t
        = foldBatches env ho mc (batchesFuel mc fuel l) i t
  | fuel, [], i, t, _ => by
    rw [batchesFuel_nil]
    cases fuel <;> rfl
  | 0, u :: rest, i, t, hlen => by simp at hlen
  | fuel + 1, u :: rest, i, t, hlen => by
    have hlen' : ((u :: rest).drop mc).length ≤ fuel := by
      simp only [List.length_drop] at *
      simp at hlen ⊢
      omega
    rw [crawlLoopFuel, batchesFuel, foldBatches]
    rcases heval : evalResults env.writeOk ho
        (batchTasks env.fetch i ((u :: rest).take mc)) t with e | t₁
    · rfl
    · exact crawlLoopFuel_eq_foldBatches env ho mc hmc fuel ((u :: rest).drop mc)
        (i + mc) t₁ hlen'

lemma descendantsL_flatDoc (ctag : String) (hct : ctag ≠ nsTag "loc") :
    ∀ ts : List String, (∀ t ∈ ts, t ≠ "") →
      (descendantsL (ts.map fun t =>
          XmlElem.mk ctag none [XmlElem.mk (nsTag "loc") (some t) []])).filterMap
        locSel = ts
  | [], _ => rfl
  | t :: rest, hts => by
    have ht : t ≠ "" := hts t (by simp)
    have hrec := descendantsL_flatDoc ctag hct rest
      (fun x hx => hts x (by simp [hx]))
    simp only [List.map_cons, descendantsL, descendants, List.filterMap_cons,
      List.filterMap_append]
    rw [locSel, if_neg (by simpa [XmlElem.tag] using hct)]
    simp only [descendantsL, descendants, List.append_nil, List.filterMap_cons]
    rw [locSel, if_pos (by simp [XmlElem.tag])]
    simp only [XmlElem.text, if_neg ht]
    simpa using hrec

lemma locTexts_mkIndexDoc (ts : List String) (hts : ∀ t ∈ ts, t ≠ "") :
    locTexts (mkIndexDoc ts) = ts := by
  unfold locTexts mkIndexDoc
  rw [descendants]
  exact descendantsL_flatDoc _ (by decide) ts hts

lemma locTexts_mkUrlsetDoc (ts : List String) (hts : ∀ t ∈ ts, t ≠ "") :
    locTexts (mkUrlsetDoc ts) = ts := by
  unfold locTexts mkUrlsetDoc
  rw [descendants]
  exact descendantsL_flatDoc _ (by decide) ts hts

lemma countP_isSucc_total (l : List FetchRes) :
    l.countP isSucc + l.countP (fun r => !isSucc r) = l.length := by
  induction l with
  | nil => rfl
  | cons a l ih =>
    cases ha : isSucc a <;> simp [List.countP_cons, ha] <;> omega

/- ------------------------------------------------------------------ -/
/- Claims.                                                             -/
/- ------------------------------------------------------------------ -/

lemma crawl_parallel_ok_counts (env : CrawlEnv) (urls : List String) (ho : Bool)
    (mc : Nat) (t : Tally) (hmc : 1 ≤ mc)
    (h : (crawl_parallel env urls ho mc).result = Except.ok t) :
    t.success_count + t.fail_count = urls.length ∧
    t.success_count = (taskOutcomes env.fetch urls).countP isSucc ∧
    t.fail_count = (taskOutcomes env.fetch urls).countP (fun r => !isSucc r) := by
  rcases hsf : env.startFault with _ | msg
  · unfold crawl_parallel at h
    rw [hsf] at h
    simp only [if_neg (by omega : ¬ mc = 0)] at h
    have hc := crawlLoopFuel_ok_counts env ho mc hmc urls.length urls 0 ⟨0, 0⟩ t
      le_rfl h
    have htot := countP_isSucc_total (outcomesFrom env.fetch 0 urls)
    rw [outcomesFrom_length] at htot
    refine ⟨?_, ?_, ?_⟩
    · rw [hc.1, hc.2]
      simpa [taskOutcomes] using htot
    · simpa [taskOutcomes] using hc.1
    · simpa [taskOutcomes] using hc.2
  · unfold crawl_parallel at h
    rw [hsf] at h
    exact absurd h (by simp)

/-- C1: for every page-URL list and every `maxConcurrent ≥ 1`, when
`_crawl_parallel` completes normally the final `success_count` plus
`fail_count` equals the number of submitted URLs — every submitted URL
contributes exactly one increment to exactly one of the two counters (the
counters tally exactly the successful and the non-successful task outcomes). -/
theorem run_tally_totals (env : CrawlEnv) (urls : List String) (ho : Bool)
    (mc : Nat) (t : Tally) (hmc : 1 ≤ mc)
    (h : (crawl_parallel env urls ho mc).result = Except.ok t) :
    t.success_count + t.fail_count = urls.length ∧
    t.success_count = (taskOutcomes env.fetch urls).countP isSucc ∧
    t.fail_count = (taskOutcomes env.fetch urls).countP (fun r => !isSucc r) :=
  crawl_parallel_ok_counts env urls ho mc t hmc h

/-- Witness for C1: three URLs, width 2, all fetches succeed: the tally is
`⟨3, 0⟩` and `3 + 0` is the number of URLs. -/
theorem run_tally_totals_witness :
    (⟨3, 0⟩ : Tally).success_count + (⟨3, 0⟩ : Tally).fail_count
      = (["https://a", "https://b", "https://c"] : List String).length :=
  (run_tally_totals envAllOk ["https://a", "https://b", "https://c"] false 2
    ⟨3, 0⟩ (by omega) rfl).1

/-- C5: with acquisition succeeding and persistence never raising, a fetch
fault never aborts the run: the run completes normally whatever the task
outcomes are, the task whose fetch raised contributes at least one to
`fail_count`, and the counters tally every task of every batch (successes
and non-successes summing to the full URL count). -/
theorem fetch_fault_isolated (env : CrawlEnv) (urls : List String) (ho : Bool)
    (mc p : Nat) (msg : String)
    (hs : env.startFault = none) (hw : ∀ q, env.writeOk q = true) (hmc : 1 ≤ mc)
    (hp : (taskOutcomes env.fetch urls)[p]? = some (FetchRes.exn msg)) :
    ∃ t, (crawl_parallel env urls ho mc).result = Except.ok t ∧
      t.success_count = (taskOutcomes env.fetch urls).countP isSucc ∧
      t.fail_count = (taskOutcomes env.fetch urls).countP (fun r => !isSucc r) ∧
      t.success_count + t.fail_count = urls.length ∧
      1 ≤ t.fail_count := by
  obtain ⟨t, ht⟩ := crawlLoopFuel_ok_of_writeOk env ho mc hmc hw urls.length
    urls 0 ⟨0, 0⟩ le_rfl
  have hres : (crawl_parallel env urls ho mc).result = Except.ok t := by
    unfold crawl_parallel
    rw [hs]
    simpa [if_neg (by omega : ¬ mc = 0)] using ht
  obtain ⟨hsum, hsucc, hfail⟩ := crawl_parallel_ok_counts env urls ho mc t hmc hres
  refine ⟨t, hres, hsucc, hfail, hsum, ?_⟩
  have hmem : FetchRes.exn msg ∈ taskOutcomes env.fetch urls := by
    rcases List.getElem?_eq_some.mp hp with ⟨hlt, he⟩
    exact he ▸ List.getElem_mem hlt
  rw [hfail]
  exact List.countP_pos_iff.mpr ⟨FetchRes.exn msg, hmem, by simp [isSucc]⟩

/-- Witness for C5: two URLs where the first fetch raises; the run still
completes and tallies both tasks. -/
theorem fetch_fault_isolated_witness :
    ∃ t, (crawl_parallel envMixed ["https://bad", "https://good"] false 1).result
        = Except.ok t ∧
      t.success_count
        = (taskOutcomes envMixed.fetch ["https://bad", "https://good"]).countP isSucc ∧
      t.fail_count
        = (taskOutcomes envMixed.fetch ["https://bad", "https://good"]).countP
            (fun r => !isSucc r) ∧
      t.success_count + t.fail_count
        = (["https://bad", "https://good"] : List String).length ∧
      1 ≤ t.fail_count :=
  fetch_fault_isolated envMixed ["https://bad", "https://good"] false 1 0
    "net down" rfl (fun _ => rfl) (by omega) rfl

/-- C6: for `maxConcurrent ≥ 1` the loop header partitions the URL list into
contiguous, order-preserving batches: their concatenation is the original
list, every batch is non-empty of size at most `maxConcurrent`, every batch
but the last has size exactly `maxConcurrent`, a list no longer than
`maxConcurrent` forms a single batch, the crawl loop processes exactly these
batches in order, and a 10-element list at width 3 yields batches 1-3, 4-6,
7-9, 10. -/
theorem batches_partition (mc : Nat) (l : List String) (hmc : 1 ≤ mc) :
    (batches mc l).flatten = l ∧
    (∀ b ∈ batches mc l, b ≠ [] ∧ b.length ≤ mc) ∧
    (∀ b ∈ (batches mc l).dropLast, b.length = mc) ∧
    (l ≠ [] → l.length ≤ mc → batches mc l = [l]) ∧
    (∀ env ho i t, crawlLoopFuel env ho mc l.length l i t
        = foldBatches env ho mc (batches mc l) i t) ∧
    batches 3 ["u1", "u2", "u3", "u4", "u5", "u6", "u7", "u8", "u9", "u10"]
      = [["u1", "u2", "u3"], ["u4", "u5", "u6"], ["u7", "u8", "u9"], ["u10"]] := by
  refine ⟨batchesFuel_flatten mc hmc l.length l le_rfl,
    fun b hb => batchesFuel_mem mc hmc l.length l b le_rfl hb,
    fun b hb => batchesFuel_dropLast mc hmc l.length l b le_rfl hb,
    ?_,
    fun env ho i t => crawlLoopFuel_eq_foldBatches env ho mc hmc l.length l i t
      le_rfl,
    rfl⟩
  intro hne hle
  rcases l with _ | ⟨u, rest⟩
  · exact absurd rfl hne
  · show batchesFuel mc (u :: rest).length (u :: rest) = [u :: rest]
    rw [List.length_cons, batchesFuel, List.take_of_length_le hle,
      List.drop_eq_nil_of_le hle, batchesFuel_nil]

/-- Witness for C6 at width 2 over a 3-element list. -/
theorem batches_partition_witness :
    (batches 2 ["a", "b", "c"]).flatten = ["a", "b", "c"] ∧
    batches 3 ["u1", "u2", "u3", "u4", "u5", "u6", "u7", "u8", "u9", "u10"]
      = [["u1", "u2", "u3"], ["u4", "u5", "u6"], ["u7", "u8", "u9"], ["u10"]] :=
  ⟨(batches_partition 2 ["a", "b", "c"] (by omega)).1,
   (batches_partition 2 ["a", "b", "c"] (by omega)).2.2.2.2.2⟩

/-- C9: task identities are unique across the whole run: for a batch starting
at index `mc * k₁` and offset `j₁ < mc` and another (possibly different)
batch starting at `mc * k₂` with offset `j₂ < mc`, distinct (batch, offset)
pairs produce distinct `session_id` strings. -/
theorem session_ids_unique (mc i₁ j₁ i₂ j₂ k₁ k₂ : Nat) (hmc : 1 ≤ mc)
    (hi₁ : i₁ = mc * k₁) (hi₂ : i₂ = mc * k₂)
    (hj₁ : j₁ < mc) (hj₂ : j₂ < mc)
    (hne : (i₁, j₁) ≠ (i₂, j₂)) :
    sessionId (i₁ + j₁) ≠ sessionId (i₂ + j₂) := by
  intro h
  apply hne
  have hk : i₁ + j₁ = i₂ + j₂ := sessionId_injective h
  subst hi₁
  subst hi₂
  have hj : j₁ = j₂ := by
    have hmod := congrArg (fun x => x % mc) hk
    simpa [Nat.mul_add_mod, Nat.mod_eq_of_lt hj₁, Nat.mod_eq_of_lt hj₂]
      using hmod
  subst hj
  have : mc * k₁ = mc * k₂ := by omega
  rw [this]

/-- Witness for C9: positions 1 (batch 0, offset 1) and 3 (batch 1, offset 0)
at width 3 get distinct session ids. -/
theorem session_ids_unique_witness :
    sessionId (3 * 0 + 1) ≠ sessionId (3 * 1 + 0) :=
  session_ids_unique 3 (3 * 0) 1 (3 * 1) 0 0 1 (by omega) rfl rfl
    (by omega) (by omega) (by decide)

/-- Counterexample to C3: when `crawler.start()` itself raises, the claim
says `crawler.close()` is still invoked exactly once, but `start` is awaited
before the try/finally block (line 37), so `close` runs zero times, not
once. -/
theorem close_skipped_on_start_fault :
    (crawl_parallel envStartFault ["https://a"] false 1).closeCount = 0 ∧
    (0 : Nat) ≠ 1 :=
  ⟨rfl, by omega⟩

/-- C3 as amended: once acquisition succeeds, `close` is invoked exactly once
on every exit path (normal completion or a propagated error); when
acquisition itself faults, `close` is never invoked and the fault propagates. -/
theorem close_exactly_once_after_start (env : CrawlEnv) (urls : List String)
    (ho : Bool) (mc : Nat) :
    (env.startFault = none → (crawl_parallel env urls ho mc).closeCount = 1) ∧
    (∀ msg, env.startFault = some msg →
      (crawl_parallel env urls ho mc).closeCount = 0 ∧
      (crawl_parallel env urls ho mc).result = Except.error msg) := by
  constructor
  · intro h
    simp [crawl_parallel, h]
  · intro msg h
    simp [crawl_parallel, h]

/-- Witness for C3 (amended): with the all-success environment `close` runs
once; with the start-fault environment it runs zero times and the fault
propagates. -/
theorem close_exactly_once_after_start_witness :
    (crawl_parallel envAllOk ["https://a"] false 1).closeCount = 1 ∧
    (crawl_parallel envStartFault ["https://a"] false 1).closeCount = 0 ∧
    (crawl_parallel envStartFault ["https://a"] false 1).result
      = Except.error "boom" :=
  ⟨(close_exactly_once_after_start envAllOk ["https://a"] false 1).1 rfl,
   (close_exactly_once_after_start envStartFault ["https://a"] false 1).2
     "boom" rfl⟩

/-- Counterexample to C4: on the empty URL list the claim says capability
acquisition (`start`) is never invoked, but `_crawl_parallel` constructs the
crawler and awaits `start` before ever looking at the URL list, so `start`
is invoked. -/
theorem empty_run_still_starts :
    (crawl_parallel envAllOk [] false 10).startInvoked = true ∧
    true ≠ false :=
  ⟨rfl, by simp⟩

/-- C4 as amended: `_crawl_parallel` on the empty list still acquires and
releases the fetch capability and completes with tally `{0, 0}`; it is
`main` that, when the resolved URL list is empty, skips the crawl entirely
(so `start` is indeed never invoked there), producing no summary at all. -/
theorem empty_url_list_behavior (env : CrawlEnv) (ho : Bool) (mc : Nat)
    (fetchXml : String → Except String XmlElem) (smu : String)
    (hmc : 1 ≤ mc) (hs : env.startFault = none) :
    (crawl_parallel env [] ho mc).result = Except.ok ⟨0, 0⟩ ∧
    (crawl_parallel env [] ho mc).startInvoked = true ∧
    (crawl_parallel env [] ho mc).closeCount = 1 ∧
    (sitemapURLs fetchXml smu = [] → main_run env fetchXml smu ho = none) := by
  refine ⟨?_, ?_, ?_, ?_⟩
  · simp only [crawl_parallel, hs, if_neg (by omega : ¬ mc = 0)]
    rfl
  · simp [crawl_parallel, hs]
  · simp [crawl_parallel, hs]
  · intro hurls
    simp [main_run, hurls]

/-- Witness for C4 (amended), with a sitemap fetch that fails so that `main`
resolves an empty URL list. -/
theorem empty_url_list_behavior_witness :
    (crawl_parallel envAllOk [] false 10).result = Except.ok ⟨0, 0⟩ ∧
    (crawl_parallel envAllOk [] false 10).startInvoked = true ∧
    (crawl_parallel envAllOk [] false 10).closeCount = 1 ∧
    main_run envAllOk (fun _ => Except.error "connection refused") "https://s"
      false = none := by
  have h := empty_url_list_behavior envAllOk false 10
    (fun _ => Except.error "connection refused") "https://s" (by omega) rfl
  exact ⟨h.1, h.2.1, h.2.2.1, h.2.2.2 rfl⟩

/-- Counterexample to C2: two URLs that both fetch successfully, but the
file write raises. The claim says the persistence failure is logged and the
orchestrator proceeds to the remaining outcomes, which would end the run
normally with tally `⟨2, 0⟩`; instead the write error propagates out of
`_save_markdown_to_result_dir` (which has no try/except) and aborts the
run. -/
theorem persist_fault_aborts_run :
    (crawl_parallel envWriteFault ["https://a", "https://b"] false 2).result
      = Except.error "a.md" ∧
    (crawl_parallel envWriteFault ["https://a", "https://b"] false 2).result
      ≠ Except.ok ⟨2, 0⟩ :=
  ⟨rfl, fun h => Except.noConfusion ((rfl :
    (crawl_parallel envWriteFault ["https://a", "https://b"] false 2).result
      = Except.error "a.md").symm.trans h)⟩

/-- C2 as amended: a write failure while persisting a successful outcome is
fatal to the run: the exception propagates (so the remaining outcomes and
batches are not processed and no summary is produced), the fetch outcome is
not converted to a Failure (no tally is reverted — the error escapes before
any further counting), and the capability is still released by the finally
block. -/
theorem persist_fault_propagates (env : CrawlEnv) (u : String)
    (rest : List String) (cr : CrawlResult) (m : String) (mc : Nat)
    (hs : env.startFault = none) (hmc : 1 ≤ mc)
    (hf : env.fetch u (sessionId 0) = FetchRes.res cr)
    (hsucc : cr.success = true)
    (hm : cr.markdown = some m) (hm' : m ≠ "")
    (hw : env.writeOk (filenameOf cr.url ++ ".md") = false) :
    (crawl_parallel env (u :: rest) false mc).result
      = Except.error (filenameOf cr.url ++ ".md") ∧
    (crawl_parallel env (u :: rest) false mc).closeCount = 1 := by
  obtain ⟨k, rfl⟩ : ∃ k, mc = k + 1 := ⟨mc - 1, by omega⟩
  refine ⟨?_, by simp [crawl_parallel, hs]⟩
  simp only [crawl_parallel, hs, if_neg (by omega : ¬ k + 1 = 0),
    List.length_cons]
  rw [crawlLoopFuel]
  have hbatch : batchTasks env.fetch 0 ((u :: rest).take (k + 1))
      = (u, FetchRes.res cr) :: batchTasks env.fetch 1 (rest.take k) := by
    rw [List.take_succ_cons, batchTasks, hf]
  rw [hbatch, evalResults, if_pos hsucc]
  have hsave : save_markdown_to_result_dir env.writeOk cr false
      = Except.error (filenameOf cr.url ++ ".md") := by
    simp [save_markdown_to_result_dir, hm, hm', hw]
  rw [hsave]

/-- Witness for C2 (amended): the write-fault environment on two URLs ends
in the propagated error for the first file, with the crawler closed. -/
theorem persist_fault_propagates_witness :
    (crawl_parallel envWriteFault ["https://a", "https://b"] false 2).result
      = Except.error (filenameOf "https://a" ++ ".md") ∧
    (crawl_parallel envWriteFault ["https://a", "https://b"] false 2).closeCount
      = 1 :=
  persist_fault_propagates envWriteFault "https://a" ["https://b"]
    ⟨true, "https://a", some "M", none⟩ "M" 2 rfl (by omega) rfl rfl rfl
    (by decide) rfl

/-- Counterexample to C8: the claim derives the filename by stripping a
LEADING `https://` prefix, but line 85 uses `str.replace`, which removes
EVERY occurrence. For source URL `xhttps://y.z` (no leading prefix) the code
persists to `xy_z.md` while the claimed derivation gives `xhttps:__y_z.md`. -/
theorem filename_strips_all_occurrences :
    save_markdown_to_result_dir (fun _ => true)
      ⟨true, "xhttps://y.z", some "M", none⟩ false
      = Except.ok (some ("xy_z.md", "M")) ∧
    specFilenameOf "xhttps://y.z" ++ ".md" = "xhttps:__y_z.md" ∧
    ("xy_z.md" : String) ≠ "xhttps:__y_z.md" :=
  ⟨rfl, rfl, by decide⟩

/-- C8 as amended: whenever a file is persisted for an outcome, its name is
obtained from the source URL by removing every occurrence of `https://` (not
only a leading one) and then replacing every `/` and every `.` with `_`,
with extension `.md` in rendered-text mode and `.html` in raw-markup mode;
the written content is exactly the outcome's content of the selected kind,
and `https://example.com/a.html` yields `example_com_a_html` plus the
extension. -/
theorem filename_derivation (writeOk : String → Bool) (cr : CrawlResult)
    (ho : Bool) (path content : String)
    (h : save_markdown_to_result_dir writeOk cr ho
      = Except.ok (some (path, content))) :
    path = filenameOf cr.url ++ (if ho then ".html" else ".md") ∧
    filenameOf cr.url
      = pyReplace (pyReplace (pyReplace cr.url "https://" "") "/" "_") "." "_" ∧
    (ho = true → cr.html = some content) ∧
    (ho = false → cr.markdown = some content) ∧
    filenameOf "https://example.com/a.html" = "example_com_a_html" := by
  by_cases hho : ho
  · subst hho
    rcases hh : cr.html with _ | s
    · simp [save_markdown_to_result_dir, hh] at h
    · by_cases hs : s = ""
      · simp [save_markdown_to_result_dir, hh, hs] at h
      · by_cases hwk : writeOk (filenameOf cr.url ++ ".html") = true
        · simp only [save_markdown_to_result_dir, hh, hs, hwk, if_true,
            if_false, if_neg, ite_false, ite_true] at h
          obtain ⟨hpath, hcontent⟩ :
              filenameOf cr.url ++ ".html" = path ∧ s = content := by
            simpa using h
          subst hpath
          subst hcontent
          exact ⟨rfl, rfl, fun _ => rfl, by simp, rfl⟩
        · simp [save_markdown_to_result_dir, hh, hs, hwk] at h
  · simp only [Bool.not_eq_true] at hho
    subst hho
    rcases hm : cr.markdown with _ | s
    · simp [save_markdown_to_result_dir, hm] at h
    · by_cases hs : s = ""
      · simp [save_markdown_to_result_dir, hm, hs] at h
      · by_cases hwk : writeOk (filenameOf cr.url ++ ".md") = true
        · simp only [save_markdown_to_result_dir, hm, hs, hwk, if_true,
            if_false, if_neg, ite_false, ite_true, Bool.false_eq_true] at h
          obtain ⟨hpath, hcontent⟩ :
              filenameOf cr.url ++ ".md" = path ∧ s = content := by
            simpa using h
          subst hpath
          subst hcontent
          exact ⟨rfl, rfl, by simp, fun _ => rfl, rfl⟩
        · simp [save_markdown_to_result_dir, hm, hs, hwk] at h

/-- Witness for C8 (amended): persisting the successful outcome for
`https://example.com/a.html` in rendered-text mode. -/
theorem filename_derivation_witness :
    ("example_com_a_html.md" : String)
        = filenameOf "https://example.com/a.html" ++ (if false then ".html" else ".md") ∧
    filenameOf "https://example.com/a.html"
      = pyReplace (pyReplace (pyReplace "https://example.com/a.html" "https://" "")
          "/" "_") "." "_" ∧
    (false = true →
      (some "H" : Option String) = some "T") ∧
    (false = false →
      (some "T" : Option String) = some "T") ∧
    filenameOf "https://example.com/a.html" = "example_com_a_html" :=
  filename_derivation (fun _ => true)
    ⟨true, "https://example.com/a.html", some "T", some "H"⟩ false
    "example_com_a_html.md" "T" rfl

/-- C7: `_get_child_sitemaps` returns the single-element list holding the
base URL itself when the fetched document's root tag does not end in
`sitemapindex`; when the root is a sitemap index whose `sitemap` children
carry `loc` entries with (non-empty) texts `ts`, it returns exactly `ts` in
document order. -/
theorem resolve_leaf_sitemaps
    (f₁ f₂ : String → Except String XmlElem) (base₁ base₂ : String)
    (root : XmlElem) (ts : List String)
    (h₁ : f₁ base₁ = Except.ok root)
    (hnotidx : strEndsWith root.tag "sitemapindex" = false)
    (h₂ : f₂ base₂ = Except.ok (mkIndexDoc ts))
    (hts : ∀ t ∈ ts, t ≠ "") :
    get_child_sitemaps f₁ base₁ = [base₁] ∧
    get_child_sitemaps f₂ base₂ = ts := by
  constructor
  · simp [get_child_sitemaps, h₁, hnotidx]
  · have hidx : strEndsWith (mkIndexDoc ts).tag "sitemapindex" = true := rfl
    simp [get_child_sitemaps, h₂, hidx, locTexts_mkIndexDoc ts hts]

/-- Witness for C7: a urlset document is not an index, so the base URL comes
back; an index with child locs `a`, `b` yields exactly `[a, b]`. -/
theorem resolve_leaf_sitemaps_witness :
    get_child_sitemaps (fun _ => Except.ok (mkUrlsetDoc ["https://x/y"]))
      "https://root/sitemap.xml" = ["https://root/sitemap.xml"] ∧
    get_child_sitemaps (fun _ => Except.ok (mkIndexDoc ["a", "b"])) "base"
      = ["a", "b"] :=
  resolve_leaf_sitemaps
    (fun _ => Except.ok (mkUrlsetDoc ["https://x/y"]))
    (fun _ => Except.ok (mkIndexDoc ["a", "b"]))
    "https://root/sitemap.xml" "base" (mkUrlsetDoc ["https://x/y"]) ["a", "b"]
    rfl rfl rfl (by decide)

/-- C10: `_get_urls_to_crawl` returns the text of every `loc` element found
anywhere in the document (not only those nested under a `url` element), in
document order, omitting entries whose text is missing or empty; in
particular a sitemap-index document yields its child sitemap URLs as page
URLs, a urlset document yields its page URLs, a fetch/parse failure yields
`[]`, and in the mixed document the root-level `loc` is extracted while the
empty and missing texts are dropped. -/
theorem page_url_extraction
    (f g : String → Except String XmlElem) (url₁ url₂ : String)
    (root : XmlElem) (e : String) (ts us : List String)
    (hf : f url₁ = Except.ok root)
    (hg : g url₂ = Except.error e)
    (hts : ∀ t ∈ ts, t ≠ "") (hus : ∀ t ∈ us, t ≠ "") :
    get_urls_to_crawl f url₁ = (descendants root).filterMap locSel ∧
    get_urls_to_crawl g url₂ = [] ∧
    get_urls_to_crawl (fun _ => Except.ok (mkIndexDoc ts)) url₁ = ts ∧
    get_urls_to_crawl (fun _ => Except.ok (mkUrlsetDoc us)) url₁ = us ∧
    get_urls_to_crawl (fun _ => Except.ok mixedDoc) url₁
      = ["https://x/y", "https://toplevel"] := by
  refine ⟨?_, ?_, ?_, ?_, rfl⟩
  · unfold get_urls_to_crawl
    rw [hf]
    rfl
  · unfold get_urls_to_crawl
    rw [hg]
  · unfold get_urls_to_crawl
    exact locTexts_mkIndexDoc ts hts
  · unfold get_urls_to_crawl
    exact locTexts_mkUrlsetDoc us hus

/-- Witness for C10 on concrete documents: an index document's child
sitemap URLs are themselves returned as page URLs, and fetch failure gives
`[]`. -/
theorem page_url_extraction_witness :
    get_urls_to_crawl (fun _ => Except.ok mixedDoc) "https://s"
        = (descendants mixedDoc).filterMap locSel ∧
    get_urls_to_crawl (fun _ => Except.error "HTTP 500") "https://t" = [] ∧
    get_urls_to_crawl
        (fun _ => Except.ok (mkIndexDoc ["https://c1.xml", "https://c2.xml"]))
        "https://s" = ["https://c1.xml", "https://c2.xml"] ∧
    get_urls_to_crawl (fun _ => Except.ok (mkUrlsetDoc ["https://x/y"]))
        "https://s" = ["https://x/y"] ∧
    get_urls_to_crawl (fun _ => Except.ok mixedDoc) "https://s"
      = ["https://x/y", "https://toplevel"] :=
  page_url_extraction (fun _ => Except.ok mixedDoc)
    (fun _ => Except.error "HTTP 500") "https://s" "https://t" mixedDoc
    "HTTP 500" ["https://c1.xml", "https://c2.xml"] ["https://x/y"] rfl rfl
    (by decide) (by decide)

end Scraper
